import Mathlib

/-!
Verification development for the Chess-Master repository.

This file shallowly embeds the core of the source (chess_engine.py,
move_validator.py, position_evaluator.py) in Lean 4 and proves properties
of the embedded code.

Conventions of the embedding:
- A board position label is the 2-character string of the source, modelled
  as a pair of characters (file letter, rank digit).
- Python ints are modelled as `Int`; `move_count` (only ever incremented
  from 0) as `Nat`.
- Python floats appearing in the evaluator are modelled as exact rationals
  `ℚ`; the float literals used by the source (0.40, 0.30, 0.20, 0.10, 3.5,
  4.5) and all intermediate values are exactly representable there except
  for the final weighted sum, which the source rounds with Python `round`
  (round-half-to-even), modelled by `pyRound`.
- Code that would raise a Python exception is modelled with `Option`
  (`none` = the call raises); where a generator would propagate such an
  exception we model the raising path as producing no moves, which is
  noted at each site.
- Python object identity for pieces coincides with structural equality on
  every board appearing in a theorem below (positions are pairwise
  distinct there), so `List.erase` / first-occurrence update model the
  source's identity-based `list.remove` and in-place mutation.
-/

/-- Color of a chess piece (chess_engine.py, class Color). -/
inductive Color where
  | white
  | black
deriving DecidableEq, Repr

/-- Returns the opposite color (chess_engine.py, Color.opposite). -/
def Color.opposite : Color → Color
  | .white => .black
  | .black => .white

/-- Type of a chess piece (chess_engine.py, class PieceType). -/
inductive PieceType where
  | pawn
  | knight
  | bishop
  | rook
  | queen
  | king
deriving DecidableEq, Repr

/-- Standard piece values (chess_engine.py, Piece.PIECE_VALUES). -/
def piece_value : PieceType → Int
  | .pawn => 1
  | .knight => 3
  | .bishop => 3
  | .rook => 5
  | .queen => 9
  | .king => 0

/-- A 2-character position label: file letter and rank digit
(the source stores positions as strings like "e4"). -/
structure Pos where
  file : Char
  rank : Char
deriving DecidableEq, Repr

/-- A chess piece (chess_engine.py, class Piece). The `value` attribute of
the source is assigned from PIECE_VALUES at construction and never
reassigned, so it is modelled as the derived function `Piece.value`. -/
structure Piece where
  type : PieceType
  color : Color
  position : Pos
  move_count : Nat
deriving DecidableEq, Repr

/-- Material value of a piece (chess_engine.py, Piece.value attribute,
always equal to PIECE_VALUES[type]). -/
def Piece.value (p : Piece) : Int := piece_value p.type

/-- Unicode symbol of a piece (chess_engine.py, Piece.get_symbol). -/
def get_symbol (p : Piece) : String :=
  match p.type, p.color with
  | .pawn, .white => "♙"
  | .pawn, .black => "♟"
  | .knight, .white => "♘"
  | .knight, .black => "♞"
  | .bishop, .white => "♗"
  | .bishop, .black => "♝"
  | .rook, .white => "♖"
  | .rook, .black => "♜"
  | .queen, .white => "♕"
  | .queen, .black => "♛"
  | .king, .white => "♔"
  | .king, .black => "♚"

/-- The chess board (chess_engine.py, class ChessBoard): the ordered piece
list, the move history of "from-to" tokens, and the castling flags (which
are tracked but never consulted or updated by any operation modelled
here). -/
structure Board where
  pieces : List Piece
  move_history : List String
  white_king_moved : Bool
  black_king_moved : Bool
  white_rook_a1_moved : Bool
  white_rook_h1_moved : Bool
  black_rook_a8_moved : Bool
  black_rook_h8_moved : Bool
deriving DecidableEq, Repr

/-- Files a..h in board order (chess_engine.py, ChessBoard.FILES). -/
def board_files : List Char := ['a', 'b', 'c', 'd', 'e', 'f', 'g', 'h']

/-- The standard starting position, in the exact append order of
chess_engine.py, ChessBoard.setup_starting_position: white pawns a2..h2,
white back rank a1..h1, black pawns a7..h7, black back rank a8..h8. -/
def starting_pieces : List Piece :=
  (board_files.map fun f => Piece.mk .pawn .white ⟨f, '2'⟩ 0) ++
  [Piece.mk .rook .white ⟨'a', '1'⟩ 0,
   Piece.mk .knight .white ⟨'b', '1'⟩ 0,
   Piece.mk .bishop .white ⟨'c', '1'⟩ 0,
   Piece.mk .queen .white ⟨'d', '1'⟩ 0,
   Piece.mk .king .white ⟨'e', '1'⟩ 0,
   Piece.mk .bishop .white ⟨'f', '1'⟩ 0,
   Piece.mk .knight .white ⟨'g', '1'⟩ 0,
   Piece.mk .rook .white ⟨'h', '1'⟩ 0] ++
  (board_files.map fun f => Piece.mk .pawn .black ⟨f, '7'⟩ 0) ++
  [Piece.mk .rook .black ⟨'a', '8'⟩ 0,
   Piece.mk .knight .black ⟨'b', '8'⟩ 0,
   Piece.mk .bishop .black ⟨'c', '8'⟩ 0,
   Piece.mk .queen .black ⟨'d', '8'⟩ 0,
   Piece.mk .king .black ⟨'e', '8'⟩ 0,
   Piece.mk .bishop .black ⟨'f', '8'⟩ 0,
   Piece.mk .knight .black ⟨'g', '8'⟩ 0,
   Piece.mk .rook .black ⟨'h', '8'⟩ 0]

/-- A freshly constructed board (chess_engine.py, ChessBoard.__init__:
starting position, empty history, all castling flags False). -/
def startBoard : Board :=
  { pieces := starting_pieces
    move_history := []
    white_king_moved := false
    black_king_moved := false
    white_rook_a1_moved := false
    white_rook_h1_moved := false
    black_rook_a8_moved := false
    black_rook_h8_moved := false }

/-- First piece whose position equals the given one, scanning the piece
list in order (chess_engine.py, ChessBoard.get_piece_at). -/
def get_piece_at (b : Board) (position : Pos) : Option Piece :=
  b.pieces.find? (fun p => p.position == position)

/-- All pieces of a color, in board order (chess_engine.py,
ChessBoard.get_pieces_by_color). -/
def get_pieces_by_color (b : Board) (color : Color) : List Piece :=
  b.pieces.filter (fun p => p.color == color)

/-- All pieces of a type and color (chess_engine.py,
ChessBoard.get_pieces_by_type with a color argument). -/
def get_pieces_by_type (b : Board) (t : PieceType) (color : Color) : List Piece :=
  b.pieces.filter (fun p => p.type == t && p.color == color)

/-- Render a position back to its 2-character label. -/
def pos_to_str (p : Pos) : String := String.mk [p.file, p.rank]

/-- The history token recorded by a move: the source appends the string
"from-to" built from the two position labels. -/
def move_token (from_pos to_pos : Pos) : String :=
  pos_to_str from_pos ++ "-" ++ pos_to_str to_pos

/-- Replace the first occurrence of `old` in the list by `new`; if `old`
is absent the list is unchanged. This models the source's in-place
mutation of a piece object that may or may not still be in the board's
list (it is absent exactly when it was just removed as its own capture
target). -/
def updateFirst : List Piece → Piece → Piece → List Piece
  | [], _, _ => []
  | x :: xs, old, new => if x = old then new :: xs else x :: updateFirst xs old new

/-- Move a piece (chess_engine.py, ChessBoard.move_piece): fail returning
False when no piece is at `from_pos`; otherwise remove any occupant of
`to_pos` (capture), reassign the mover's position, increment its
move_count, append the "from-to" token to the history, and return True.
The castling flags are not touched by the source. -/
def move_piece (b : Board) (from_pos to_pos : Pos) : Bool × Board :=
  match get_piece_at b from_pos with
  | none => (false, b)
  | some piece =>
    let pieces1 :=
      match get_piece_at b to_pos with
      | some target => b.pieces.erase target
      | none => b.pieces
    let moved : Piece := { piece with position := to_pos, move_count := piece.move_count + 1 }
    let pieces2 := updateFirst pieces1 piece moved
    (true, { b with pieces := pieces2,
                    move_history := b.move_history ++ [move_token from_pos to_pos] })

/-- Convert a 2-character label to zero-based coordinates
(move_validator.py, MoveValidator.pos_to_coords). The source computes
ord(label[0]) - ord('a') and int(label[1]) - 1 with no range check at
all; int() raises ValueError on a non-digit rank character, modelled as
`none`. A digit rank always yields `some`, whatever the resulting
coordinates. -/
def pos_to_coords (p : Pos) : Option (Int × Int) :=
  if p.rank.isDigit then
    some ((p.file.toNat : Int) - 97, ((p.rank.toNat : Int) - 48) - 1)
  else none

/-- Convert zero-based coordinates back to a label (move_validator.py,
MoveValidator.coords_to_pos): `none` for any pair outside 0..7 × 0..7. -/
def coords_to_pos (file rank : Int) : Option Pos :=
  if 0 ≤ file ∧ file ≤ 7 ∧ 0 ≤ rank ∧ rank ≤ 7 then
    some ⟨Char.ofNat (97 + file.toNat), Char.ofNat (49 + rank.toNat)⟩
  else none

/-- A chess move (move_validator.py, class Move). The fields is_check,
is_checkmate, is_castling and promotion are set at construction and never
changed by any code modelled here. -/
structure Move where
  from_pos : Pos
  to_pos : Pos
  piece : Piece
  captures : Bool := false
  is_check : Bool := false
  is_checkmate : Bool := false
  is_castling : Bool := false
  promotion : Option PieceType := none
deriving DecidableEq, Repr

/-- Pseudo-legal pawn moves (move_validator.py, MoveValidator.get_pawn_moves):
single forward step into an empty square; nested inside that, the double
step from the starting rank into an empty square; then the two diagonal
captures onto enemy-occupied squares, file offset -1 before +1. A `none`
from pos_to_coords means the source would raise; no moves are produced. -/
def get_pawn_moves (b : Board) (piece : Piece) : List Move :=
  match pos_to_coords piece.position with
  | none => []
  | some (file, rank) =>
    let direction : Int := if piece.color = Color.white then 1 else -1
    let start_rank : Int := if piece.color = Color.white then 1 else 6
    let forward : List Move :=
      let new_rank := rank + direction
      if 0 ≤ new_rank ∧ new_rank ≤ 7 then
        match coords_to_pos file new_rank with
        | some new_pos =>
          match get_piece_at b new_pos with
          | none =>
            let single : List Move := [{ from_pos := piece.position, to_pos := new_pos, piece := piece }]
            if rank = start_rank then
              match coords_to_pos file (rank + 2 * direction) with
              | some new_pos_2 =>
                match get_piece_at b new_pos_2 with
                | none => single ++ [{ from_pos := piece.position, to_pos := new_pos_2, piece := piece }]
                | some _ => single
              | none => single
            else single
          | some _ => []
        | none => []
      else []
    let captures : List Move :=
      [(-1 : Int), 1].flatMap fun file_offset =>
        match coords_to_pos (file + file_offset) (rank + direction) with
        | none => []
        | some capture_pos =>
          match get_piece_at b capture_pos with
          | some target =>
            if target.color ≠ piece.color then
              [{ from_pos := piece.position, to_pos := capture_pos, piece := piece, captures := true }]
            else []
          | none => []
    forward ++ captures

/-- The 8 knight offsets, in source order (move_validator.py,
MoveValidator.get_knight_moves). -/
def knight_offsets : List (Int × Int) :=
  [(-2, -1), (-2, 1), (-1, -2), (-1, 2), (1, -2), (1, 2), (2, -1), (2, 1)]

/-- Pseudo-legal knight moves (move_validator.py,
MoveValidator.get_knight_moves): each of the 8 offsets; empty destination
gives a quiet move, enemy destination a capture, friendly destination is
skipped. -/
def get_knight_moves (b : Board) (piece : Piece) : List Move :=
  match pos_to_coords piece.position with
  | none => []
  | some (file, rank) =>
    knight_offsets.flatMap fun off =>
      match coords_to_pos (file + off.1) (rank + off.2) with
      | none => []
      | some new_pos =>
        match get_piece_at b new_pos with
        | none => [{ from_pos := piece.position, to_pos := new_pos, piece := piece }]
        | some target =>
          if target.color ≠ piece.color then
            [{ from_pos := piece.position, to_pos := new_pos, piece := piece, captures := true }]
          else []

/-- One sliding ray (the distance loop of get_bishop_moves /
get_rook_moves in move_validator.py): step distances 1..7 from the start
square in a fixed direction; an empty square adds a quiet move and
continues; an enemy square adds a capture and stops; a friendly square or
the board edge stops. `fuel` counts the remaining loop iterations
(initially 7, for range(1, 8)). -/
def ray_moves (b : Board) (piece : Piece) (file rank file_dir rank_dir : Int) :
    Nat → Int → List Move
  | 0, _ => []
  | fuel + 1, distance =>
    match coords_to_pos (file + file_dir * distance) (rank + rank_dir * distance) with
    | none => []
    | some new_pos =>
      match get_piece_at b new_pos with
      | none =>
        { from_pos := piece.position, to_pos := new_pos, piece := piece } ::
          ray_moves b piece file rank file_dir rank_dir fuel (distance + 1)
      | some target =>
        if target.color ≠ piece.color then
          [{ from_pos := piece.position, to_pos := new_pos, piece := piece, captures := true }]
        else []

/-- The 4 diagonal directions, in source order. -/
def bishop_directions : List (Int × Int) := [(-1, -1), (-1, 1), (1, -1), (1, 1)]

/-- The 4 orthogonal directions, in source order. -/
def rook_directions : List (Int × Int) := [(0, 1), (0, -1), (-1, 0), (1, 0)]

/-- Pseudo-legal bishop moves (move_validator.py,
MoveValidator.get_bishop_moves). -/
def get_bishop_moves (b : Board) (piece : Piece) : List Move :=
  match pos_to_coords piece.position with
  | none => []
  | some (file, rank) =>
    bishop_directions.flatMap fun dir => ray_moves b piece file rank dir.1 dir.2 7 1

/-- Pseudo-legal rook moves (move_validator.py,
MoveValidator.get_rook_moves). -/
def get_rook_moves (b : Board) (piece : Piece) : List Move :=
  match pos_to_coords piece.position with
  | none => []
  | some (file, rank) =>
    rook_directions.flatMap fun dir => ray_moves b piece file rank dir.1 dir.2 7 1

/-- Pseudo-legal queen moves (move_validator.py,
MoveValidator.get_queen_moves): rook moves followed by bishop moves. -/
def get_queen_moves (b : Board) (piece : Piece) : List Move :=
  get_rook_moves b piece ++ get_bishop_moves b piece

/-- The 8 king directions, in source order. -/
def king_directions : List (Int × Int) :=
  [(-1, -1), (-1, 0), (-1, 1), (0, -1), (0, 1), (1, -1), (1, 0), (1, 1)]

/-- Pseudo-legal king moves (move_validator.py,
MoveValidator.get_king_moves): one step in each of the 8 directions, same
empty/enemy/friendly rule as the knight. -/
def get_king_moves (b : Board) (piece : Piece) : List Move :=
  match pos_to_coords piece.position with
  | none => []
  | some (file, rank) =>
    king_directions.flatMap fun dir =>
      match coords_to_pos (file + dir.1) (rank + dir.2) with
      | none => []
      | some new_pos =>
        match get_piece_at b new_pos with
        | none => [{ from_pos := piece.position, to_pos := new_pos, piece := piece }]
        | some target =>
          if target.color ≠ piece.color then
            [{ from_pos := piece.position, to_pos := new_pos, piece := piece, captures := true }]
          else []

/-- The per-piece-type dispatch repeated verbatim at every call site of
the source (get_legal_moves, is_attacked, detect_forks,
detect_hanging_pieces all enumerate the same six branches). -/
def piece_moves (b : Board) (piece : Piece) : List Move :=
  match piece.type with
  | .pawn => get_pawn_moves b piece
  | .knight => get_knight_moves b piece
  | .bishop => get_bishop_moves b piece
  | .rook => get_rook_moves b piece
  | .queen => get_queen_moves b piece
  | .king => get_king_moves b piece

/-- All pseudo-legal moves of a color, in board iteration order
(move_validator.py, MoveValidator.get_legal_moves). -/
def get_legal_moves (b : Board) (color : Color) : List Move :=
  (get_pieces_by_color b color).flatMap fun piece => piece_moves b piece

/-- True iff any pseudo-legal move generated for any piece of `by_color`
has destination equal to `position` (move_validator.py,
MoveValidator.is_attacked; the locally computed `opponent` variable of
the source is unused and omitted). -/
def is_attacked (b : Board) (position : Pos) (by_color : Color) : Bool :=
  (get_pieces_by_color b by_color).any fun piece =>
    (piece_moves b piece).any fun m => m.to_pos == position

/-- A fork record (move_validator.py, detect_forks record shape). -/
structure Fork where
  attacking_piece : Piece
  move : Move
  targets : List Piece
  value : Int
deriving DecidableEq, Repr

/-- Detect forks (move_validator.py, MoveValidator.detect_forks): for
every move of every piece of `color`, collect the opponent pieces whose
current position equals the move's destination; produce a record only
when at least two are collected. -/
def detect_forks (b : Board) (color : Color) : List Fork :=
  let pieces := get_pieces_by_color b color
  let opponent_pieces := get_pieces_by_color b color.opposite
  pieces.flatMap fun piece =>
    (piece_moves b piece).filterMap fun move =>
      let attacked_pieces := opponent_pieces.filter fun o => o.position == move.to_pos
      if attacked_pieces.length ≥ 2 then
        some { attacking_piece := piece, move := move, targets := attacked_pieces,
               value := attacked_pieces.foldl (fun s p => s + Piece.value p) 0 }
      else none

/-- A hanging-piece record (move_validator.py, detect_hanging_pieces
record shape). -/
structure HangingRecord where
  piece : Piece
  position : Pos
  value : Int
deriving DecidableEq, Repr

/-- The defended-scan of detect_hanging_pieces: some piece of `color` has
a generated move whose destination is `square` (move_validator.py,
detect_hanging_pieces, the inner defender loop, which breaks at the first
hit). -/
def has_defender (b : Board) (color : Color) (square : Pos) : Bool :=
  (get_pieces_by_color b color).any fun defender =>
    (piece_moves b defender).any fun m => m.to_pos == square

/-- Detect hanging pieces (move_validator.py,
MoveValidator.detect_hanging_pieces): skip kings and zero-value pieces;
a remaining piece is hanging when its square is attacked by the opponent
and no same-color piece's generated moves reach that square. -/
def detect_hanging_pieces (b : Board) (color : Color) : List HangingRecord :=
  let pieces := get_pieces_by_color b color
  let opponent_color := color.opposite
  pieces.filterMap fun piece =>
    if piece.type = PieceType.king ∨ Piece.value piece = 0 then none
    else if is_attacked b piece.position opponent_color then
      if has_defender b color piece.position then none
      else some { piece := piece, position := piece.position, value := Piece.value piece }
    else none

/-- Game phase (position_evaluator.py, class PositionPhase). -/
inductive PositionPhase where
  | opening
  | middlegame
  | endgame
deriving DecidableEq, Repr

/-- The string value of a phase (position_evaluator.py, the Enum values,
read back as phase.value in evaluate). -/
def PositionPhase.value : PositionPhase → String
  | .opening => "opening"
  | .middlegame => "middlegame"
  | .endgame => "endgame"

/-- Python round() on an exact rational: round half to even. -/
def pyRound (q : ℚ) : Int :=
  let f := ⌊q⌋
  let r := q - f
  if r < 1 / 2 then f
  else if 1 / 2 < r then f + 1
  else if f % 2 = 0 then f else f + 1

/-- Material balance in centipawns (position_evaluator.py,
PositionEvaluator._evaluate_material): Σ value×100 over White minus the
same over Black, accumulated in one pass over the piece list. -/
def evaluate_material (b : Board) : Int :=
  let sums := b.pieces.foldl
    (fun (acc : Int × Int) piece =>
      if piece.color = Color.white then (acc.1 + Piece.value piece * 100, acc.2)
      else (acc.1, acc.2 + Piece.value piece * 100))
    (0, 0)
  sums.1 - sums.2

/-- Piece activity (position_evaluator.py,
PositionEvaluator._evaluate_activity): the white and black activity
accumulators stay 0 in the source; the result is the mobility bonus
(difference of legal-move counts, times 2). -/
def evaluate_activity (b : Board) : Int :=
  let white_activity : Int := 0
  let black_activity : Int := 0
  let white_moves := (get_legal_moves b Color.white).length
  let black_moves := (get_legal_moves b Color.black).length
  let mobility_bonus := ((white_moves : Int) - (black_moves : Int)) * 2
  white_activity - black_activity + mobility_bonus

/-- The doubled-pawn penalty accumulator of one color
(position_evaluator.py, _evaluate_pawns: group the pawns by file
character, subtract 20×(count−1) for every file holding more than one;
the dict iteration order does not affect the sum, so the distinct file
characters are folded in dedup order). -/
def doubled_pawn_score (pawns : List Piece) : Int :=
  let files := (pawns.map fun p => p.position.file).dedup
  files.foldl
    (fun score f =>
      let count := (pawns.filter fun p => p.position.file == f).length
      if count > 1 then score - 20 * ((count : Int) - 1) else score)
    0

/-- Pawn structure score (position_evaluator.py,
PositionEvaluator._evaluate_pawns): White's doubled-pawn score minus
Black's. -/
def evaluate_pawns (b : Board) : Int :=
  let white_pawns := get_pieces_by_type b PieceType.pawn Color.white
  let black_pawns := get_pieces_by_type b PieceType.pawn Color.black
  doubled_pawn_score white_pawns - doubled_pawn_score black_pawns

/-- Safety of one king (position_evaluator.py,
PositionEvaluator._assess_king_safety): sentinel -200 for a missing king;
-30 when the king's coordinates are within distance < 2 of the board
center (the 3.5/4.5 float arithmetic of the source is exact and modelled
in ℚ); +10 per own pawn within one file of the king on the forward side.
The source parses the rank with int(), which on the digit characters of
every board considered here equals the character code minus 48; that
total expression is used directly. -/
def assess_king_safety (b : Board) (king : Option Piece) (color : Color) : Int :=
  match king with
  | none => -200
  | some k =>
    let file : Int := (k.position.file.toNat : Int) - 97
    let rank : Int := ((k.position.rank.toNat : Int) - 48) - 1
    let distance_from_center : ℚ :=
      min |(file : ℚ) - 3.5| |(file : ℚ) - 4.5| + min |(rank : ℚ) - 3.5| |(rank : ℚ) - 4.5|
    let center_penalty : Int := if distance_from_center < 2 then -30 else 0
    let pawns := get_pieces_by_type b PieceType.pawn color
    let shelter_bonus : Int := pawns.foldl
      (fun acc pawn =>
        let pawn_file : Int := (pawn.position.file.toNat : Int) - 97
        let pawn_rank : Int := ((pawn.position.rank.toNat : Int) - 48) - 1
        if |pawn_file - file| ≤ 1 ∧
            ((color = Color.white ∧ pawn_rank ≥ rank - 1) ∨
             (color = Color.black ∧ pawn_rank ≤ rank + 1)) then acc + 10
        else acc)
      0
    center_penalty + shelter_bonus

/-- Locate the king of a color; the source's linear scan keeps the last
king found (position_evaluator.py, _evaluate_king_safety, king lookup
loop). -/
def find_king (b : Board) (color : Color) : Option Piece :=
  b.pieces.foldl
    (fun acc piece =>
      if piece.type = PieceType.king ∧ piece.color = color then some piece else acc)
    none

/-- King safety score (position_evaluator.py,
PositionEvaluator._evaluate_king_safety): White's assessment minus
Black's. -/
def evaluate_king_safety (b : Board) : Int :=
  assess_king_safety b (find_king b Color.white) Color.white -
    assess_king_safety b (find_king b Color.black) Color.black

/-- Game phase from remaining non-king, non-pawn material
(position_evaluator.py, PositionEvaluator._determine_phase). -/
def determine_phase (b : Board) : PositionPhase :=
  let piece_count : Int := b.pieces.foldl
    (fun acc piece =>
      if piece.type ≠ PieceType.king ∧ piece.type ≠ PieceType.pawn then
        acc + Piece.value piece
      else acc)
    0
  if piece_count > 9 then .opening
  else if piece_count > 3 then .middlegame
  else .endgame

/-- Text assessment of a score (position_evaluator.py,
PositionEvaluator._assess_position). -/
def assess_position (score : ℚ) : String :=
  let abs_score := |score|
  if abs_score < 50 then "Equal position"
  else if abs_score < 200 then (if score > 0 then "White" else "Black") ++ " has slight advantage"
  else if abs_score < 500 then (if score > 0 then "White" else "Black") ++ " has clear advantage"
  else if abs_score < 900 then (if score > 0 then "White" else "Black") ++ " is much better"
  else (if score > 0 then "White" else "Black") ++ " is winning"

/-- The record returned by evaluate() (position_evaluator.py,
PositionEvaluator.evaluate), including the nested 'detailed' fields. -/
structure EvalResult where
  material : Int
  activity : Int
  pawn_structure : Int
  king_safety : Int
  total : Int
  assessment : String
  phase : String
  white_advantage : String
  margin : ℚ
deriving DecidableEq, Repr

/-- Evaluate the current position (position_evaluator.py,
PositionEvaluator.evaluate): the four sub-scores, their weighted sum
rounded to the total, and the derived presentation fields. -/
def evaluate (b : Board) : EvalResult :=
  let material := evaluate_material b
  let activity := evaluate_activity b
  let pawns := evaluate_pawns b
  let king_safety := evaluate_king_safety b
  let total : ℚ :=
    (material : ℚ) * 0.40 + (activity : ℚ) * 0.30 + (pawns : ℚ) * 0.20 +
      (king_safety : ℚ) * 0.10
  let phase := determine_phase b
  let assessment := assess_position total
  { material := material
    activity := activity
    pawn_structure := pawns
    king_safety := king_safety
    total := pyRound total
    assessment := assessment
    phase := phase.value
    white_advantage := if total > 0 then "White" else "Black"
    margin := |total| }

/-- The record returned by get_move_evaluation (position_evaluator.py):
the move token, the evaluation of the simulated position, and the symbol
of the captured piece when there was one. -/
structure MoveEvalRecord where
  move : String
  evaluation : EvalResult
  captured : Option String
deriving DecidableEq, Repr

/-- Evaluate a move by simulate-then-revert (position_evaluator.py,
PositionEvaluator.get_move_evaluation). The pair's second component is
the board state after the call; a `none` first component means the
source raises before returning (with the board as mutated up to the
raising statement):
with no piece at `from_pos` the failed move leaves the board intact, the
revert then removes whatever get_piece_at finds at `to_pos` (if anything)
and raises on None.position / pieces.remove(None); with a piece at
`from_pos` the simulation runs, and the revert removes the mover from its
new square, restores its position field, re-appends it and re-appends any
captured piece. The mover's incremented move_count is not decremented. -/
def get_move_evaluation (b : Board) (from_pos to_pos : Pos) :
    Option MoveEvalRecord × Board :=
  match get_piece_at b from_pos with
  | none =>
    match get_piece_at b to_pos with
    | some q => (none, { b with pieces := b.pieces.erase q })
    | none => (none, b)
  | some _ =>
    let captured_piece := get_piece_at b to_pos
    let b1 := (move_piece b from_pos to_pos).2
    let evaluation := evaluate b1
    match get_piece_at b1 to_pos with
    | none => (none, b1)
    | some mover =>
      let pieces2 := b1.pieces.erase mover
      let restored : Piece := { mover with position := from_pos }
      let pieces3 := pieces2 ++ [restored] ++
        (match captured_piece with | some c => [c] | none => [])
      (some { move := move_token from_pos to_pos
              evaluation := evaluation
              captured := captured_piece.map get_symbol },
       { b1 with pieces := pieces3 })

/-- The board invariant of the spec: no two pieces share a position. -/
def one_piece_per_square (b : Board) : Prop :=
  (b.pieces.map fun p => p.position).Nodup

instance (b : Board) : Decidable (one_piece_per_square b) := by
  unfold one_piece_per_square
  infer_instance

/-- Replacing one element preserves the length of the list. -/
theorem updateFirst_length (l : List Piece) (a c : Piece) :
    (updateFirst l a c).length = l.length := by
  induction l with
  | nil => rfl
  | cons x xs ih =>
    unfold updateFirst
    split <;> simp [ih]

/-- Replacing an absent element leaves the list unchanged. -/
theorem updateFirst_of_not_mem {l : List Piece} {a : Piece} (c : Piece) (h : a ∉ l) :
    updateFirst l a c = l := by
  induction l with
  | nil => rfl
  | cons x xs ih =>
    unfold updateFirst
    rw [if_neg, ih (fun hx => h (List.mem_cons_of_mem x hx))]
    intro hxa
    exact h (hxa ▸ List.mem_cons_self x xs)

/-- When the listed positions are pairwise distinct, at most one list
entry sits on any given square. -/
theorem filter_position_le_one (t : Pos) :
    ∀ l : List Piece, (l.map fun p => p.position).Nodup →
      (l.filter fun o => o.position == t).length ≤ 1 := by
  intro l
  induction l with
  | nil => simp
  | cons a l ih =>
    intro h
    rw [List.map_cons, List.nodup_cons] at h
    by_cases ha : a.position = t
    · have hnil : (l.filter fun o => o.position == t) = [] := by
        rw [List.filter_eq_nil_iff]
        intro x hx
        simp only [beq_iff_eq]
        intro hxt
        exact h.1 (List.mem_map.mpr ⟨x, hx, by rw [hxt, ha]⟩)
      simp [List.filter_cons, ha, hnil]
    · simp only [List.filter_cons, beq_iff_eq, ha, if_false]
      exact ih h.2

/-- C1: for every board state, evaluate() returns a record whose total
field equals the weighted sum 0.40*material + 0.30*activity +
0.20*pawn_structure + 0.10*king_safety of the four returned sub-scores,
rounded to the nearest integer. -/
theorem evaluate_total_weighted_round (b : Board) :
    (evaluate b).total =
      pyRound (((evaluate b).material : ℚ) * 0.40 + ((evaluate b).activity : ℚ) * 0.30 +
        ((evaluate b).pawn_structure : ℚ) * 0.20 + ((evaluate b).king_safety : ℚ) * 0.10) :=
  rfl

/-- C5: on the standard starting position, White and Black each have
exactly 20 pseudo-legal moves, and the knight on b1 generates exactly the
two moves to a3 and c3. -/
theorem starting_position_counts :
    (get_legal_moves startBoard Color.white).length = 20 ∧
    (get_legal_moves startBoard Color.black).length = 20 ∧
    (get_knight_moves startBoard (Piece.mk PieceType.knight Color.white ⟨'b', '1'⟩ 0)).map
        (fun m => m.to_pos) = [⟨'a', '3'⟩, ⟨'c', '3'⟩] := by
  decide

/-- C7: apply_move returns false iff no piece occupies the source square,
and in that failure case the board (pieces, history, flags) is returned
completely unchanged. -/
theorem move_piece_empty_source (b : Board) (from_pos to_pos : Pos) :
    ((move_piece b from_pos to_pos).1 = false ↔ get_piece_at b from_pos = none) ∧
    (get_piece_at b from_pos = none → (move_piece b from_pos to_pos).2 = b) := by
  cases h : get_piece_at b from_pos with
  | none => simp [move_piece, h]
  | some p => simp [move_piece, h]

/-- C7 witness: e4 is empty on the starting board, the move fails and the
board is unchanged. -/
theorem move_piece_empty_source_witness :
    ((move_piece startBoard ⟨'e', '4'⟩ ⟨'e', '5'⟩).1 = false ↔
      get_piece_at startBoard ⟨'e', '4'⟩ = none) ∧
    (move_piece startBoard ⟨'e', '4'⟩ ⟨'e', '5'⟩).2 = startBoard :=
  ⟨(move_piece_empty_source startBoard ⟨'e', '4'⟩ ⟨'e', '5'⟩).1,
   (move_piece_empty_source startBoard ⟨'e', '4'⟩ ⟨'e', '5'⟩).2 (by decide)⟩

/-- C8 counterexample: the label "a0" is out of range (rank 0 is not a
board rank), yet pos_to_coords returns the value (0, -1) rather than no
value — the forward conversion performs no range check, refuting the
claim that both directions reject out-of-range input. -/
theorem pos_to_coords_no_range_check_cex :
    pos_to_coords ⟨'a', '0'⟩ = some (0, -1) := by
  decide

/-- C8 amended: coords_to_pos rejects exactly the out-of-range coordinate
pairs, returning no value for them; pos_to_coords performs no range
validation at all — for every 2-character label whose rank character is a
digit it returns a coordinate pair, in or out of range (a non-digit rank
character raises in the source instead of returning). -/
theorem coords_conversion_range :
    (∀ file rank : Int, coords_to_pos file rank = none ↔
        ¬(0 ≤ file ∧ file ≤ 7 ∧ 0 ≤ rank ∧ rank ≤ 7)) ∧
    (∀ p : Pos, p.rank.isDigit = true → (pos_to_coords p).isSome = true) := by
  constructor
  · intro file rank
    unfold coords_to_pos
    split <;> simp_all
  · intro p hd
    unfold pos_to_coords
    rw [if_pos hd]
    rfl

/-- C8 amended witness: the digit-ranked label "a0" gets a coordinate
pair from pos_to_coords. -/
theorem coords_conversion_range_witness :
    (pos_to_coords ⟨'a', '0'⟩).isSome = true :=
  coords_conversion_range.2 ⟨'a', '0'⟩ (by decide)

/-- C9: every call to get_move_evaluation with a piece at the source
square leaves the board's move_history equal to the old history plus one
appended "from-to" token — the revert step removes no history entry, on
every exit path of the call. -/
theorem get_move_evaluation_appends_history (b : Board) (from_pos to_pos : Pos) (p : Piece)
    (h : get_piece_at b from_pos = some p) :
    (get_move_evaluation b from_pos to_pos).2.move_history =
      b.move_history ++ [move_token from_pos to_pos] := by
  simp only [get_move_evaluation, move_piece, h]
  split <;> rfl

/-- C9 witness: simulating e2-e4 on the starting board appends exactly
the token "e2-e4" to the empty history. -/
theorem get_move_evaluation_appends_history_witness :
    (get_move_evaluation startBoard ⟨'e', '2'⟩ ⟨'e', '4'⟩).2.move_history =
      startBoard.move_history ++ [move_token ⟨'e', '2'⟩ ⟨'e', '4'⟩] :=
  get_move_evaluation_appends_history startBoard ⟨'e', '2'⟩ ⟨'e', '4'⟩
    (Piece.mk PieceType.pawn Color.white ⟨'e', '2'⟩ 0) (by decide)

/-- C10: moving a piece onto its own square succeeds (returns true) and
shrinks the piece list by one — the mover is found as its own capture
target and removed before being relocated; under the one-piece-per-square
invariant no piece remains on that square afterwards. -/
theorem move_piece_self_capture (b : Board) (pos : Pos) (q : Piece)
    (h : get_piece_at b pos = some q) :
    (move_piece b pos pos).1 = true ∧
    (move_piece b pos pos).2.pieces.length + 1 = b.pieces.length ∧
    (one_piece_per_square b → get_piece_at (move_piece b pos pos).2 pos = none) := by
  have hq : q ∈ b.pieces := List.mem_of_find?_eq_some h
  have hpos : q.position = pos := by
    have := List.find?_some h
    simpa using this
  refine ⟨?_, ?_, ?_⟩
  · simp only [move_piece, h]
  · simp only [move_piece, h]
    have hlen : (b.pieces.erase q).length = b.pieces.length - 1 :=
      List.length_erase_of_mem hq
    have hlp : 0 < b.pieces.length := List.length_pos_of_mem hq
    simp only [updateFirst_length, hlen]
    omega
  · intro hinv
    have hnodup : b.pieces.Nodup := List.Nodup.of_map _ hinv
    have hnot : q ∉ b.pieces.erase q := hnodup.not_mem_erase
    simp only [move_piece, h]
    rw [updateFirst_of_not_mem _ hnot]
    unfold get_piece_at
    rw [List.find?_eq_none]
    intro x hx
    simp only [beq_iff_eq]
    intro hxpos
    have hxmem : x ∈ b.pieces := List.mem_of_mem_erase hx
    have hxq : x = q := List.inj_on_of_nodup_map hinv hxmem hq (by rw [hxpos, hpos])
    exact hnot (hxq ▸ hx)

/-- C10 witness: on the starting board, move_piece e2 e2 returns true,
removes the e2 pawn (31 pieces remain of 32), and leaves e2 empty. -/
theorem move_piece_self_capture_witness :
    (move_piece startBoard ⟨'e', '2'⟩ ⟨'e', '2'⟩).1 = true ∧
    (move_piece startBoard ⟨'e', '2'⟩ ⟨'e', '2'⟩).2.pieces.length + 1 =
      startBoard.pieces.length ∧
    get_piece_at (move_piece startBoard ⟨'e', '2'⟩ ⟨'e', '2'⟩).2 ⟨'e', '2'⟩ = none :=
  have h := move_piece_self_capture startBoard ⟨'e', '2'⟩
    (Piece.mk PieceType.pawn Color.white ⟨'e', '2'⟩ 0) (by decide)
  ⟨h.1, h.2.1, h.2.2 (by decide)⟩

/-- C2: for every legal (from,to) pair produced by move generation on the
starting position, get_move_evaluation leaves the board's piece multiset
unchanged except that the moved piece's move_count is incremented by one
and not restored: the resulting piece list is a permutation of the
original with exactly that one piece replaced by its incremented copy
(same position, same color, same type). -/
theorem get_move_evaluation_frame :
    ∀ m ∈ get_legal_moves startBoard Color.white ++ get_legal_moves startBoard Color.black,
      (get_move_evaluation startBoard m.from_pos m.to_pos).2.pieces.isPerm
        ({ m.piece with move_count := m.piece.move_count + 1 } ::
          startBoard.pieces.erase m.piece) = true := by
  decide

/-- C2 witness: the legal pair (e2, e4) round-trips to the original 32
pieces with only the e2 pawn's move_count incremented. -/
theorem get_move_evaluation_frame_witness :
    (get_move_evaluation startBoard ⟨'e', '2'⟩ ⟨'e', '4'⟩).2.pieces.isPerm
      ({ (Piece.mk PieceType.pawn Color.white ⟨'e', '2'⟩ 0) with move_count := 1 } ::
        startBoard.pieces.erase (Piece.mk PieceType.pawn Color.white ⟨'e', '2'⟩ 0)) = true :=
  get_move_evaluation_frame
    { from_pos := ⟨'e', '2'⟩, to_pos := ⟨'e', '4'⟩,
      piece := Piece.mk PieceType.pawn Color.white ⟨'e', '2'⟩ 0 }
    (by decide)

/-- C3 counterexample: on the starting position the empty square e3 is
reported attacked by White, yet every White move with destination e3 is a
non-capturing pawn move — the straight-ahead pawn push into the empty
square is what makes is_attacked true, refuting "a pawn's straight-ahead
move into an empty square never causes is_attacked to be true". -/
theorem pawn_forward_attack_cex :
    is_attacked startBoard ⟨'e', '3'⟩ Color.white = true ∧
    get_piece_at startBoard ⟨'e', '3'⟩ = none ∧
    ((get_pieces_by_color startBoard Color.white).all fun p =>
      (piece_moves startBoard p).all fun m =>
        !(m.to_pos == ⟨'e', '3'⟩) || (p.type == PieceType.pawn && !m.captures)) = true := by
  decide

/-- C3 amended: a pawn contributes to is_attacked through all of its
generated moves, not only its diagonal captures — in particular a pawn's
straight-ahead move into an empty square does make is_attacked true for
that square, because is_attacked scans every generated move's destination
with no capture filter. -/
theorem pawn_forward_move_attacks (b : Board) (p : Piece) (m : Move)
    (hp : p ∈ b.pieces) (ht : p.type = PieceType.pawn)
    (hm : m ∈ get_pawn_moves b p) (_hcap : m.captures = false)
    (_hempty : get_piece_at b m.to_pos = none) :
    is_attacked b m.to_pos p.color = true := by
  unfold is_attacked
  rw [List.any_eq_true]
  refine ⟨p, ?_, ?_⟩
  · unfold get_pieces_by_color
    rw [List.mem_filter]
    exact ⟨hp, by simp⟩
  · rw [List.any_eq_true]
    refine ⟨m, ?_, by simp⟩
    simpa [piece_moves, ht] using hm

/-- C3 amended witness: the white e2 pawn's forward push to the empty e3
square makes e3 attacked by White on the starting board. -/
theorem pawn_forward_move_attacks_witness :
    is_attacked startBoard ⟨'e', '3'⟩ Color.white = true :=
  pawn_forward_move_attacks startBoard (Piece.mk PieceType.pawn Color.white ⟨'e', '2'⟩ 0)
    { from_pos := ⟨'e', '2'⟩, to_pos := ⟨'e', '3'⟩,
      piece := Piece.mk PieceType.pawn Color.white ⟨'e', '2'⟩ 0 }
    (by decide) (by decide) (by decide) (by decide) (by decide)

/-- C6: under the one-piece-per-square invariant, detect_forks returns
the empty list for every board state and color — a fork record requires
at least two distinct opponent pieces on one destination square, which
the invariant rules out. -/
theorem detect_forks_empty_of_unique_positions (b : Board) (c : Color)
    (h : one_piece_per_square b) : detect_forks b c = [] := by
  unfold detect_forks
  rw [List.flatMap_eq_nil_iff]
  intro piece _hp
  rw [List.filterMap_eq_nil_iff]
  intro move _hm
  have hsub : ((get_pieces_by_color b c.opposite).map fun p => p.position).Nodup := by
    unfold one_piece_per_square at h
    exact h.sublist ((List.filter_sublist b.pieces).map _)
  have hle := filter_position_le_one move.to_pos _ hsub
  simp only []
  rw [if_neg]
  omega

/-- C6 witness: the starting board satisfies the invariant, and its fork
detection is empty. -/
theorem detect_forks_empty_witness :
    detect_forks startBoard Color.white = [] :=
  detect_forks_empty_of_unique_positions startBoard Color.white (by decide)

/-- A two-piece demonstration board: a white pawn on e4 attacked by a
black rook on e8, with no white defender. -/
def demo_board : Board :=
  { pieces := [Piece.mk PieceType.pawn Color.white ⟨'e', '4'⟩ 0,
               Piece.mk PieceType.rook Color.black ⟨'e', '8'⟩ 0]
    move_history := []
    white_king_moved := false
    black_king_moved := false
    white_rook_a1_moved := false
    white_rook_h1_moved := false
    black_rook_a8_moved := false
    black_rook_h8_moved := false }

/-- C4: for every board state and color, a non-king piece of that color
whose square is attacked by the opponent appears in
detect_hanging_pieces exactly when no same-color piece's generated moves
include that square — in particular a piece with a defender (some
same-color piece whose generated moves reach its square) never appears in
the result. -/
theorem detect_hanging_mem_iff (b : Board) (c : Color) (p : Piece)
    (hp : p ∈ get_pieces_by_color b c) (hk : p.type ≠ PieceType.king)
    (hatt : is_attacked b p.position c.opposite = true) :
    ({ piece := p, position := p.position, value := Piece.value p } : HangingRecord)
        ∈ detect_hanging_pieces b c ↔ has_defender b c p.position = false := by
  have hval : ¬(p.type = PieceType.king ∨ Piece.value p = 0) := by
    rintro (h1 | h1)
    · exact hk h1
    · cases h2 : p.type
      case king => exact hk h2
      all_goals (rw [Piece.value, h2] at h1; norm_num [piece_value] at h1)
  unfold detect_hanging_pieces
  dsimp only []
  rw [List.mem_filterMap]
  constructor
  · rintro ⟨q, hq, heq⟩
    by_cases h1 : q.type = PieceType.king ∨ Piece.value q = 0
    · rw [if_pos h1] at heq
      cases heq
    rw [if_neg h1] at heq
    by_cases h2 : is_attacked b q.position c.opposite = true
    · rw [if_pos h2] at heq
      by_cases h3 : has_defender b c q.position = true
      · rw [if_pos h3] at heq
        cases heq
      · rw [if_neg h3] at heq
        have hqp : q = p := by
          injection heq with heq2
          exact congrArg HangingRecord.piece heq2
        rw [hqp] at h3
        simpa using h3
    · rw [if_neg h2] at heq
      cases heq
  · intro hdef
    refine ⟨p, hp, ?_⟩
    rw [if_neg hval, if_pos hatt, if_neg (by simp [hdef])]

/-- C4 witness: on the demonstration board the undefended attacked white
pawn on e4 is reported hanging. -/
theorem detect_hanging_mem_iff_witness :
    ({ piece := Piece.mk PieceType.pawn Color.white ⟨'e', '4'⟩ 0, position := ⟨'e', '4'⟩,
       value := Piece.value (Piece.mk PieceType.pawn Color.white ⟨'e', '4'⟩ 0) } : HangingRecord)
      ∈ detect_hanging_pieces demo_board Color.white :=
  (detect_hanging_mem_iff demo_board Color.white
      (Piece.mk PieceType.pawn Color.white ⟨'e', '4'⟩ 0)
      (by decide) (by decide) (by decide)).mpr (by decide)
